import Mathlib

/-!
Shallow embedding of the CloudGraph spatial containment engine:
the Graph Store (frontend/src/app/store.ts), the placement rule engine
(canvas/utils/validation.ts), and the drag/drop controller plus the
cost-estimation debounce (canvas Canvas component).

Positions and sizes are modelled over ℚ (the source uses JS numbers and
the spec asks about exact arithmetic); zIndex over ℤ.  Optional JS fields
become `Option`; JS truthiness of numbers (`a || b || d`) is modelled
explicitly, since `0` is falsy.
-/

namespace CloudGraph

/-- A 2-D point `{x, y}`. -/
structure Pos where
  x : ℚ
  y : ℚ
deriving DecidableEq, Repr

/-- Values appearing in node `data` attribute maps (strings, numbers,
booleans, string lists — the shapes used by the palette defaults). -/
inductive AttrVal where
  | str (v : String)
  | num (v : ℚ)
  | bool (v : Bool)
  | strs (v : List String)
deriving DecidableEq, Repr

/-- The `data` object of a node: `data.type` (specific resource kind),
`data.label`, and the remaining resource-specific attributes as an
association list. -/
structure NodeData where
  ty : String
  label : String
  attrs : List (String × AttrVal)
deriving DecidableEq, Repr

/-- A reactflow node as used by this codebase: wire-level `type`,
`data`, parent-relative `position`, optional `parentNode`, measured
`width`/`height`, `style.width`/`style.height`, `zIndex`, `extent`, and
the reactflow-maintained `positionAbsolute` cache.  Optional JS fields
are `Option`. -/
structure RFNode where
  id : String
  type_ : Option String
  data : NodeData
  position : Pos
  parentNode : Option String
  width : Option ℚ
  height : Option ℚ
  styleWidth : Option ℚ
  styleHeight : Option ℚ
  zIndex : Option ℤ
  extent : Option String
  positionAbsolute : Option Pos
deriving DecidableEq, Repr

/-- Result of `validatePlacement`: `{valid: boolean; message?: string}`. -/
structure ValidationResult where
  valid : Bool
  message : Option String
deriving DecidableEq, Repr

/-- One entry of the `RULES` table in validation.ts.  Rules without an
`exceptions` field get `[]` (optional chaining makes the membership test
false there). -/
structure Rule where
  allowedParents : List String
  mustHaveParent : Bool
  exceptions : List String
  errorMessage : String
deriving DecidableEq, Repr

/-- The `RULES` lookup table from validation.ts, as a partial map from
the derived node type to its rule. -/
def ruleFor (nodeType : String) : Option Rule :=
  if nodeType = "subnet" then
    some { allowedParents := ["vpc"], mustHaveParent := true, exceptions := [],
           errorMessage := "Subnets must be placed inside a VPC." }
  else if nodeType = "service" then
    some { allowedParents := ["subnet"], mustHaveParent := true, exceptions := ["s3"],
           errorMessage := "Compute resources must be placed inside a Subnet." }
  else if nodeType = "vpc" then
    some { allowedParents := [], mustHaveParent := false, exceptions := [],
           errorMessage := "" }
  else if nodeType = "eks" then
    some { allowedParents := ["subnet"], mustHaveParent := true, exceptions := [],
           errorMessage := "EKS clusters must be placed inside a Subnet." }
  else if nodeType = "eks-node-group" then
    some { allowedParents := ["eks"], mustHaveParent := true, exceptions := [],
           errorMessage := "Node groups must be placed inside an EKS cluster." }
  else none

/-- The node-type derivation at the top of `validatePlacement`:
`data.type` of vpc/subnet uses `node.type || node.data.type`
(JS `||`: an absent or empty `node.type` falls back to `data.type`);
eks and eks-node-group map to themselves; everything else is bucketed
into `service`. -/
def nodeTypeOf (node : RFNode) : String :=
  if node.data.ty = "vpc" ∨ node.data.ty = "subnet" then
    match node.type_ with
    | some t => if t = "" then node.data.ty else t
    | none => node.data.ty
  else if node.data.ty = "eks" then "eks"
  else if node.data.ty = "eks-node-group" then "eks-node-group"
  else "service"

/-- The placement rule engine `validatePlacement(node, parentNode)` from
validation.ts, translated clause by clause: (1) rule lookup (unknown
types allowed), (2) exception check on `data.type`, (3) must-have-parent
check, (4) parent-type membership check (`includes(undefined)` is
false, so a parent without a wire type fails the membership test). -/
def validatePlacement (node : RFNode) (parentNode : Option RFNode) : ValidationResult :=
  let nodeType := nodeTypeOf node
  let specificType := node.data.ty
  match ruleFor nodeType with
  | none => { valid := true, message := none }
  | some rule =>
    if specificType ∈ rule.exceptions then
      { valid := true, message := none }
    else if rule.mustHaveParent ∧ parentNode = none then
      { valid := false, message := some rule.errorMessage }
    else
      match parentNode with
      | some p =>
        match p.type_ with
        | some pt =>
          if pt ∈ rule.allowedParents then { valid := true, message := none }
          else { valid := false, message := some rule.errorMessage }
        | none => { valid := false, message := some rule.errorMessage }
      | none => { valid := true, message := none }

/-- Component-wise sum of two points. -/
def addPos (a b : Pos) : Pos := { x := a.x + b.x, y := a.y + b.y }

/-- JS numeric truthiness: `0` (and an absent value) is falsy. -/
def truthyQ (o : Option ℚ) : Option ℚ :=
  match o with
  | some v => if v = 0 then none else some v
  | none => none

/-- JS `a || d` on an optional number with default `d`. -/
def jsOr (a : Option ℚ) (d : ℚ) : ℚ := (truthyQ a).getD d

/-- The node lookup `nodes.find(n => n.id === node.parentNode)`: when
`parentNode` is absent nothing matches (ids are strings). -/
def findParent (nodes : List RFNode) (pid : Option String) : Option RFNode :=
  match pid with
  | some p => nodes.find? (fun m => m.id = p)
  | none => none

/-- The coordinate resolver `getAbsolutePosition` from the Canvas
component: absent node resolves to the origin; a cached
`positionAbsolute` is returned as-is; otherwise the node's relative
`position` is added to the recursively resolved parent position (a
dangling `parentId` resolves the parent to the origin).  The source
recursion is unbounded (it diverges on a parent cycle, an acknowledged
gap); the `fuel` argument makes it total here, returning the origin on
exhaustion, and is irrelevant whenever it exceeds the chain length. -/
def getAbsolutePosition : ℕ → List RFNode → Option RFNode → Pos
  | _, _, none => { x := 0, y := 0 }
  | 0, _, some _ => { x := 0, y := 0 }
  | fuel + 1, nodes, some node =>
    match node.positionAbsolute with
    | some pa => pa
    | none =>
      let parent := findParent nodes node.parentNode
      let parentPos := getAbsolutePosition fuel nodes parent
      addPos node.position parentPos

/-- Resolver applied with fuel `nodes.length + 1`, enough for every
acyclic parent chain over the store. -/
def absOf (nodes : List RFNode) (o : Option RFNode) : Pos :=
  getAbsolutePosition (nodes.length + 1) nodes o

/-- Decidable bound on a parent chain: `chainOk f nodes o` holds when
walking `parentNode` links from `o` (stopping at an absent or dangling
parent, as the resolver does) terminates within `f` steps. -/
def chainOk : ℕ → List RFNode → Option RFNode → Bool
  | _, _, none => true
  | 0, _, some _ => false
  | fuel + 1, nodes, some node =>
    match findParent nodes node.parentNode with
    | some p => chainOk fuel nodes (some p)
    | none => true

/-- The ids by which a node's parent chain is looked up in the store
(the `parentNode` links actually traversed by the resolver). -/
def chainPids : ℕ → List RFNode → Option RFNode → List String
  | _, _, none => []
  | 0, _, some _ => []
  | fuel + 1, nodes, some node =>
    match node.parentNode with
    | none => []
    | some pid =>
      pid :: (match nodes.find? (fun m => m.id = pid) with
              | some p => chainPids fuel nodes (some p)
              | none => [])

/-- Sort key `(n.zIndex || 0)` used by the candidate-container sorts. -/
def zKey (n : RFNode) : ℤ := n.zIndex.getD 0

/-- Stable insertion of a node into a list already sorted by descending
`zIndex`: the node goes after every earlier element whose key is ≥ its
own, which is exactly the JS stable `sort((a, b) => (b.zIndex || 0) -
(a.zIndex || 0))` order. -/
def insertZDesc (n : RFNode) : List RFNode → List RFNode
  | [] => [n]
  | m :: ms => if zKey n > zKey m then n :: m :: ms else m :: insertZDesc n ms

/-- Stable sort by descending `zIndex`. -/
def sortZDesc (l : List RFNode) : List RFNode :=
  l.foldl (fun acc n => insertZDesc n acc) []

/-- Whether `n` has one of the container wire types vpc/subnet/eks. -/
def isContainerType (n : RFNode) : Bool :=
  n.type_ = some "vpc" ∨ n.type_ = some "subnet" ∨ n.type_ = some "eks"

/-- Inclusive point-in-rectangle test used by both hit tests. -/
def insideRect (c : Pos) (corner : Pos) (w h : ℚ) : Bool :=
  c.x ≥ corner.x ∧ c.x ≤ corner.x + w ∧ c.y ≥ corner.y ∧ c.y ≤ corner.y + h

/-- The drag-stop type-pairing conditions selecting a new parent
(service→subnet, subnet→vpc, eks→subnet, eks-node-group→eks). -/
def dragPairOk (node parent : RFNode) : Bool :=
  (node.type_ = some "service" ∧ parent.type_ = some "subnet") ∨
  (node.type_ = some "subnet" ∧ parent.type_ = some "vpc") ∨
  (node.type_ = some "eks" ∧ parent.type_ = some "subnet") ∨
  (node.type_ = some "eks-node-group" ∧ parent.type_ = some "eks")

/-- One drag-stop hit-test step: the dragged node's center must lie in
the candidate's absolute rectangle (width/height via
`parent.width || parent.style?.width || 0`) and the type pairing must
match; the scan stops at the first such candidate. -/
def scanDragParents (nodes : List RFNode) (node : RFNode) (center : Pos) :
    List RFNode → Option RFNode
  | [] => none
  | p :: ps =>
    let pAbs := absOf nodes (some p)
    let pW := jsOr p.width (jsOr p.styleWidth 0)
    let pH := jsOr p.height (jsOr p.styleHeight 0)
    if insideRect center pAbs pW pH ∧ dragPairOk node p then some p
    else scanDragParents nodes node center ps

/-- The drag-stop candidate scan: container-typed nodes other than the
dragged one, in descending-`zIndex` stable order, first geometric and
type-pairing match wins. -/
def findNewParent (nodes : List RFNode) (node : RFNode) (center : Pos) : Option RFNode :=
  let potentialParents :=
    sortZDesc (nodes.filter (fun n => isContainerType n ∧ n.id ≠ node.id))
  scanDragParents nodes node center potentialParents

/-- Component-wise difference of two points. -/
def subPos (a b : Pos) : Pos := { x := a.x - b.x, y := a.y - b.y }

/-- An edge `{id, source, target, type?}` (kept for fidelity of the
store shape; the claims under study do not touch edges). -/
structure EdgeT where
  id : String
  source : String
  target : String
  type_ : Option String
deriving DecidableEq, Repr

/-- Association list of per-node costs, the `breakdown` keyed by node
id. -/
def CostBreakdown := List (String × ℚ)
deriving DecidableEq

/-- The zustand store state (store.ts): node and edge collections plus
the cost-estimation figures.  `nodesAlloc` models JS array identity:
every mutation stores a freshly `.map`/spread-allocated nodes array, so
observers comparing by reference see a change exactly when `nodesAlloc`
changes. -/
structure Store where
  nodes : List RFNode
  edges : List EdgeT
  nodesAlloc : ℕ
  totalCost : ℚ
  costBreakdown : CostBreakdown

/-- The dragged node's bounding-box center at drag stop:
`absolute + (width || 0)/2, (height || 0)/2`. -/
def dragStopCenter (nodes : List RFNode) (node : RFNode) : Pos :=
  let nodeAbs := absOf nodes (some node)
  { x := nodeAbs.x + (jsOr node.width 0) / 2
    y := nodeAbs.y + (jsOr node.height 0) / 2 }

/-- The candidate parent the drag-stop handler selects for the dragged
node (hit test against the node's center). -/
def dragStopParent (nodes : List RFNode) (node : RFNode) : Option RFNode :=
  findNewParent nodes node (dragStopCenter nodes node)

/-- A partial node update as passed to `updateNode`: a field that is
`none` is absent from the payload; `some none` on an optional field is
the JS "key present with value `undefined`" (e.g. `parentNode:
undefined`), which the object spread does apply. -/
structure NodePayload where
  position : Option Pos
  parentNode : Option (Option String)
  extent : Option (Option String)
deriving DecidableEq, Repr

/-- The object spread `{...node, ...payload}` for the payload fields
used in this codebase. -/
def applyPayload (n : RFNode) (p : NodePayload) : RFNode :=
  { n with
    position := p.position.getD n.position
    parentNode := match p.parentNode with | some v => v | none => n.parentNode
    extent := match p.extent with | some v => v | none => n.extent }

/-- `addNode` from store.ts: appends and stores a fresh array. -/
def addNode (s : Store) (node : RFNode) : Store :=
  { s with nodes := s.nodes ++ [node], nodesAlloc := s.nodesAlloc + 1 }

/-- `updateNode(nodeId, payload)` from store.ts: maps over the nodes,
shallow-merging the payload into every node whose id matches, and
stores the freshly allocated mapped array. -/
def updateNode (s : Store) (nodeId : String) (payload : NodePayload) : Store :=
  { s with
    nodes := s.nodes.map (fun n => if n.id = nodeId then applyPayload n payload else n)
    nodesAlloc := s.nodesAlloc + 1 }

/-- A partial update of a node's `data` object: optional new `type` and
`label`, plus further attribute entries. -/
structure NodeDataPatch where
  ty : Option String
  label : Option String
  attrs : List (String × AttrVal)
deriving DecidableEq, Repr

/-- JS object spread `{...old, ...new}` on the open attribute part:
keys of `old` keep their slots (with values overridden where `new` has
the key), keys only in `new` are appended. -/
def objMerge (old new : List (String × AttrVal)) : List (String × AttrVal) :=
  (old.map (fun kv => match new.lookup kv.1 with
                      | some v => (kv.1, v)
                      | none => kv)) ++
  new.filter (fun kv => (old.lookup kv.1).isNone)

/-- The data merge `{...node.data, ...newData}` of `updateNodeData`. -/
def applyDataPatch (d : NodeData) (p : NodeDataPatch) : NodeData :=
  { ty := p.ty.getD d.ty
    label := p.label.getD d.label
    attrs := objMerge d.attrs p.attrs }

/-- `updateNodeData(nodeId, newData)` from store.ts: merges into the
matching node's `data` only and stores the freshly allocated mapped
array. -/
def updateNodeData (s : Store) (nodeId : String) (patch : NodeDataPatch) : Store :=
  { s with
    nodes := s.nodes.map (fun n =>
      if n.id = nodeId then { n with data := applyDataPatch n.data patch } else n)
    nodesAlloc := s.nodesAlloc + 1 }

/-- `setCosts(total, breakdown)` from store.ts. -/
def setCosts (s : Store) (total : ℚ) (breakdown : CostBreakdown) : Store :=
  { s with totalCost := total, costBreakdown := breakdown }

/-- The drag-start snapshot kept in `dragRef`:
`{id, position, parentNode}`. -/
structure DragRef where
  id : String
  position : Pos
  parentNode : Option String
deriving DecidableEq, Repr

/-- `onNodeDragStart`: snapshot the dragged node's current relative
position and parent (no node category is excluded here). -/
def onNodeDragStart (node : RFNode) : Option DragRef :=
  some { id := node.id, position := node.position, parentNode := node.parentNode }

/-- Which branch of `onNodeDragStop` ran (derived bookkeeping; the
store transformation is the faithful part). -/
inductive DragOutcome where
  | vpcSkip
  | invalidReverted
  | invalidNoSnapshot
  | reparented
  | orphaned
  | unchanged
deriving DecidableEq, Repr

/-- The drag-stop handler `onNodeDragStop` from the Canvas component,
translated branch by branch: early return for wire type `vpc`; absolute
center; candidate scan; `validatePlacement`; on invalid, alert and
revert only when the snapshot exists and matches the dragged id (the
early return also keeps the snapshot); on valid, commit a reparent, an
orphan conversion, or nothing, and clear the snapshot.  Returns the
store, the surviving `dragRef`, and which branch ran. -/
def onNodeDragStop (ref : Option DragRef) (s : Store) (node : RFNode) :
    Store × Option DragRef × DragOutcome :=
  if node.type_ = some "vpc" then (s, ref, DragOutcome.vpcSkip)
  else
    let nodeAbs := absOf s.nodes (some node)
    let newParent := dragStopParent s.nodes node
    let validation := validatePlacement node newParent
    if validation.valid = false then
      match ref with
      | some r =>
        if r.id = node.id then
          (updateNode s node.id
            { position := some r.position
              parentNode := some r.parentNode
              extent := some none },
           ref, DragOutcome.invalidReverted)
        else (s, ref, DragOutcome.invalidNoSnapshot)
      | none => (s, ref, DragOutcome.invalidNoSnapshot)
    else
      match newParent with
      | some parent =>
        if node.parentNode ≠ some parent.id then
          let pAbs := absOf s.nodes (some parent)
          (updateNode s node.id
            { position := some (subPos nodeAbs pAbs)
              parentNode := some (some parent.id)
              extent := none },
           none, DragOutcome.reparented)
        else (s, none, DragOutcome.unchanged)
      | none =>
        match node.parentNode with
        | some _ =>
          (updateNode s node.id
            { position := some nodeAbs
              parentNode := some none
              extent := none },
           none, DragOutcome.orphaned)
        | none => (s, none, DragOutcome.unchanged)

/-- The store-visible effect of the drag itself: while dragging,
reactflow dispatches position changes through the store's
`onNodesChange` (`applyNodeChanges`), so the dragged node's `position`
is updated in place and the collection is freshly allocated. -/
def dragMove (s : Store) (id : String) (p : Pos) : Store :=
  { s with
    nodes := s.nodes.map (fun n => if n.id = id then { n with position := p } else n)
    nodesAlloc := s.nodesAlloc + 1 }

/-- A complete drag gesture on the node with the given id: snapshot at
drag start, the drag moves the node's stored relative position to
`dragged`, and the drag-stop handler runs on the moved node against the
mid-drag store.  On an id not in the store no gesture happens. -/
def dragGesture (s : Store) (id : String) (dragged : Pos) :
    Store × Option DragRef × DragOutcome :=
  match s.nodes.find? (fun n => n.id = id) with
  | none => (s, none, DragOutcome.unchanged)
  | some n0 =>
    let ref := onNodeDragStart n0
    let s1 := dragMove s id dragged
    let n1 := { n0 with position := dragged }
    onNodeDragStop ref s1 n1

/-- Whether a palette type string is one of the container kinds
(`type === 'vpc' || type === 'subnet' || type === 'eks'`). -/
def isContainerTy (ty : String) : Bool :=
  ty = "vpc" ∨ ty = "subnet" ∨ ty = "eks"

/-- The category-specific default `data` object built by `onDrop`
(lines assembling `defaultData`). -/
def defaultDataFor (ty : String) : NodeData :=
  let base : NodeData := { ty := ty, label := "New " ++ ty, attrs := [] }
  if ty = "vpc" then
    { base with attrs := [("cidr", AttrVal.str "10.0.0.0/16"),
                          ("enableDnsHostnames", AttrVal.bool true)] }
  else if ty = "subnet" then
    { base with attrs := [("cidr", AttrVal.str "10.0.1.0/24"),
                          ("az", AttrVal.str "us-east-1a"),
                          ("mapPublicIp", AttrVal.bool true)] }
  else if ty = "ec2" then
    { base with attrs := [("instanceType", AttrVal.str "t3.micro"),
                          ("ami", AttrVal.str "ubuntu-22.04")] }
  else if ty = "rds" then
    { base with label := "my-db",
                attrs := [("engine", AttrVal.str "mysql"),
                          ("instanceClass", AttrVal.str "db.t3.micro"),
                          ("allocatedStorage", AttrVal.num 20),
                          ("username", AttrVal.str "admin")] }
  else if ty = "s3" then
    { base with label := "my-app-bucket",
                attrs := [("versioning", AttrVal.bool false),
                          ("forceDestroy", AttrVal.bool false)] }
  else if ty = "eks" then
    { base with label := "my-eks-cluster",
                attrs := [("version", AttrVal.str "1.29")] }
  else if ty = "eks-node-group" then
    { base with label := "workers",
                attrs := [("instanceTypes", AttrVal.strs ["t3.medium"]),
                          ("desiredSize", AttrVal.num 2),
                          ("minSize", AttrVal.num 1),
                          ("maxSize", AttrVal.num 4)] }
  else base

/-- The style size and zIndex chosen per palette type in `onDrop`
(vpc 500×400 layer 10, subnet 250×180 layer 20, eks 300×200 layer 25,
everything else unsized at the resource layer 30). -/
def dropGeometry (ty : String) : Option ℚ × Option ℚ × ℤ :=
  if ty = "vpc" then (some 500, some 400, 10)
  else if ty = "subnet" then (some 250, some 180, 20)
  else if ty = "eks" then (some 300, some 200, 25)
  else (none, none, 30)

/-- The freshly created node literal in `onDrop`: id is
`type-Date.now()` (`now` stands for the timestamp), wire type is the
palette type for containers and `service` otherwise, position is the
raw drop point until a parent is assigned. -/
def dropNewNode (ty : String) (mousePos : Pos) (now : ℕ) : RFNode :=
  let g := dropGeometry ty
  { id := ty ++ "-" ++ toString now
    type_ := some (if isContainerTy ty then ty else "service")
    data := defaultDataFor ty
    position := mousePos
    parentNode := none
    width := none
    height := none
    styleWidth := g.1
    styleHeight := g.2.1
    zIndex := some g.2.2
    extent := none
    positionAbsolute := none }

/-- The creation-time type-pairing conditions (`isValid` flags in the
`onDrop` scan): subnet→vpc, eks→subnet, eks-node-group→eks, and any
non-container palette type→subnet. -/
def dropPairOk (ty : String) (parent : RFNode) : Bool :=
  (ty = "subnet" ∧ parent.type_ = some "vpc") ∨
  (ty = "eks" ∧ parent.type_ = some "subnet") ∨
  (ty = "eks-node-group" ∧ parent.type_ = some "eks") ∨
  (¬isContainerTy ty ∧ parent.type_ = some "subnet")

/-- One creation hit-test step: the raw drop point must lie in the
candidate's absolute rectangle, with fallback sizes 200×150
(`parent.width || parent.style?.width || 200`), and the pairing must
match; first such candidate wins. -/
def scanDropParents (nodes : List RFNode) (ty : String) (mousePos : Pos) :
    List RFNode → Option RFNode
  | [] => none
  | p :: ps =>
    let pAbs := absOf nodes (some p)
    let pW := jsOr p.width (jsOr p.styleWidth 200)
    let pH := jsOr p.height (jsOr p.styleHeight 150)
    if insideRect mousePos pAbs pW pH ∧ dropPairOk ty p then some p
    else scanDropParents nodes ty mousePos ps

/-- The candidate container chosen by the `onDrop` scan over all
container-typed nodes in descending-`zIndex` stable order. -/
def findDropParent (nodes : List RFNode) (ty : String) (mousePos : Pos) : Option RFNode :=
  scanDropParents nodes ty mousePos (sortZDesc (nodes.filter isContainerType))

/-- The created node after the scan: when a candidate was selected the
node gets its id as parent and a position relative to it, otherwise it
keeps the raw drop point with no parent. -/
def dropPlacedNode (nodes : List RFNode) (ty : String) (mousePos : Pos) (now : ℕ) : RFNode :=
  let newNode := dropNewNode ty mousePos now
  match findDropParent nodes ty mousePos with
  | some p =>
    { newNode with
      parentNode := some p.id
      extent := none
      position := subPos mousePos (absOf nodes (some p)) }
  | none => newNode

/-- The parent `Node` looked up for the final rule check
(`newNode.parentNode ? nodes.find(...) : undefined`; an empty-string id
is falsy in JS). -/
def dropParentLookup (nodes : List RFNode) (placed : RFNode) : Option RFNode :=
  match placed.parentNode with
  | some pid => if pid = "" then none else nodes.find? (fun n => n.id = pid)
  | none => none

/-- The palette-drop handler `onDrop`: no-op on an empty drag type;
otherwise build the default node, hit-test for a container, run
`validatePlacement` on the placed node against the looked-up parent,
and append via `addNode` only when valid (invalid drops abort before
any store mutation). -/
def onDrop (s : Store) (ty : String) (mousePos : Pos) (now : ℕ) : Store :=
  if ty = "" then s
  else
    let placed := dropPlacedNode s.nodes ty mousePos now
    let parent := dropParentLookup s.nodes placed
    let validation := validatePlacement placed parent
    if validation.valid then addNode s placed else s

/-- The pending debounce timer of the cost-estimation effect: absolute
fire time and the node list captured by the scheduled closure. -/
structure DebounceTimer where
  fireAt : ℕ
  captured : List RFNode

/-- The cost-estimation `useEffect` body run when the node collection
changes at time `t`: the cleanup cancels any previously scheduled
timeout, and a new 500 ms timeout capturing the current nodes is
scheduled.  Nothing else happens synchronously — in particular the
store's cost figures are untouched at this step. -/
def costEffectStep (t : ℕ) (s : Store) (_timer : Option DebounceTimer) : Option DebounceTimer :=
  some { fireAt := t + 500, captured := s.nodes }

/-- The scheduled timeout callback firing: with an empty captured node
list the costs are reset via `setCosts(0, {})`; otherwise
`estimateCosts` is launched asynchronously (an external call whose
response is applied whenever it resolves, so the store is unchanged at
the firing step itself). -/
def costTimerFire (s : Store) (timer : Option DebounceTimer) : Store × Option DebounceTimer :=
  match timer with
  | none => (s, none)
  | some d =>
    if d.captured.isEmpty then (setCosts s 0 [], none)
    else (s, none)

/-- Fixture builder: a node with the given id, wire type, `data.type`,
relative position, parent, style size and zIndex; other fields as
freshly created nodes have them (unmeasured, no extent, no cache). -/
def mkNode (id : String) (ty : Option String) (dty : String) (pos : Pos)
    (par : Option String) (sw sh : Option ℚ) (z : Option ℤ) : RFNode :=
  { id := id, type_ := ty, data := { ty := dty, label := "", attrs := [] },
    position := pos, parentNode := par, width := none, height := none,
    styleWidth := sw, styleHeight := sh, zIndex := z, extent := none,
    positionAbsolute := none }

/-- Fixture builder: a store holding the given nodes and nothing else. -/
def mkStore (ns : List RFNode) : Store :=
  { nodes := ns, edges := [], nodesAlloc := 0, totalCost := 0, costBreakdown := [] }

/-- Fixture: the empty store (empty canvas). -/
def emptyStore : Store := mkStore []

/-- Fixture: a vpc container at the origin, 500×400, layer 10. -/
def fxVpc : RFNode :=
  mkNode "vpc-1" (some "vpc") "vpc" { x := 0, y := 0 } none (some 500) (some 400) (some 10)

/-- Fixture: a subnet at (10,10) inside the vpc, 250×180, layer 20. -/
def fxSubnetA : RFNode :=
  mkNode "subnet-1" (some "subnet") "subnet" { x := 10, y := 10 } (some "vpc-1")
    (some 250) (some 180) (some 20)

/-- Fixture: a second subnet at (60,60) inside the vpc, 250×180,
layer 20, overlapping the first. -/
def fxSubnetB : RFNode :=
  mkNode "subnet-2" (some "subnet") "subnet" { x := 60, y := 60 } (some "vpc-1")
    (some 250) (some 180) (some 20)

/-- Fixture: an s3 service node at (40,40) inside the second subnet. -/
def fxS3 : RFNode :=
  mkNode "s3-1" (some "service") "s3" { x := 40, y := 40 } (some "subnet-2")
    none none (some 30)

/-- Fixture: an ec2 service node at (40,40) inside the second subnet. -/
def fxEc2 : RFNode :=
  mkNode "ec2-1" (some "service") "ec2" { x := 40, y := 40 } (some "subnet-2")
    none none (some 30)

/-- Fixture: a service node of a resource kind (`lambda`) that appears
nowhere in the rule table, dropped on the bare canvas. -/
def fxLambda : RFNode :=
  mkNode "lambda-1" (some "service") "lambda" { x := 10, y := 10 } none none none (some 30)

/-- Fixture: a root node at (10,10) with no cache, the parent for the
cached-resolver counterexample. -/
def fxChainRoot : RFNode :=
  mkNode "p" none "x" { x := 10, y := 10 } none none none none

/-- Fixture: a child of `fxChainRoot` at relative (1,1) carrying a
stale `positionAbsolute` cache of (5,5). -/
def fxCachedChild : RFNode :=
  { mkNode "n" none "x" { x := 1, y := 1 } (some "p") none none none with
    positionAbsolute := some { x := 5, y := 5 } }

/-- Fixture: a cache-free child of `fxChainRoot` at relative (1,1). -/
def fxChainChild : RFNode :=
  mkNode "n2" none "x" { x := 1, y := 1 } (some "p") none none none

/-- Fixture: the ec2 node as the drag has left it, far outside every
container. -/
def fxEc2Dragged : RFNode := { fxEc2 with position := { x := 1000, y := 1000 } }

/-- Fixture: a store whose node list is empty while the cost figures
still hold a previously computed estimate. -/
def fxStaleCostStore : Store :=
  { nodes := [], edges := [], nodesAlloc := 5, totalCost := 5,
    costBreakdown := [("ec2-1", 5)] }

/-- Fixture: the round-trip store with two overlapping subnets — the s3
node sits in the second subnet at a spot also covered by the first. -/
def fxQuadStore : Store := mkStore [fxVpc, fxSubnetA, fxSubnetB, fxS3]

/-- Fixture: the round-trip store with a single subnet. -/
def fxTriStore : Store := mkStore [fxVpc, fxSubnetB, fxS3]

/-! Helper lemmas about the store's map-by-id mutation shape. -/

/-- Mapping an id-targeted modification over a list in which no node
has the targeted id is the identity. -/
theorem map_modify_not_mem (l : List RFNode) (x : String) (g : RFNode → RFNode)
    (h : ∀ n ∈ l, n.id ≠ x) :
    l.map (fun n => if n.id = x then g n else n) = l := by
  induction l with
  | nil => rfl
  | cons a t ih =>
    simp only [List.map_cons, List.cons.injEq]
    exact ⟨if_neg (h a (by simp)), ih (fun n hn => h n (by simp [hn]))⟩

/-- Looking up the targeted id after an id-preserving targeted
modification finds the modified node. -/
theorem find?_modify (l : List RFNode) (x : String) (g : RFNode → RFNode)
    (hg : ∀ n, (g n).id = n.id) :
    (l.map (fun n => if n.id = x then g n else n)).find? (fun n => n.id = x) =
      (l.find? (fun n => n.id = x)).map g := by
  induction l with
  | nil => rfl
  | cons a t ih =>
    by_cases ha : a.id = x
    · simp [List.find?, ha, hg]
    · simp [List.find?, ha, ih]

/-- Two successive id-targeted modifications fuse into their
composition when the first preserves ids. -/
theorem map_modify_comp (l : List RFNode) (x : String) (g1 g2 : RFNode → RFNode)
    (hg1 : ∀ n, (g1 n).id = n.id) :
    (l.map (fun n => if n.id = x then g1 n else n)).map
        (fun n => if n.id = x then g2 n else n) =
      l.map (fun n => if n.id = x then g2 (g1 n) else n) := by
  rw [List.map_map]
  apply List.map_congr_left
  intro n _
  by_cases hn : n.id = x
  · simp [Function.comp, hn, hg1]
  · simp [Function.comp, hn]

/-- A successful find returns an element whose id is the one looked
up. -/
theorem find?_id_eq (l : List RFNode) (x : String) (n : RFNode)
    (h : l.find? (fun m => m.id = x) = some n) : n.id = x := by
  have := List.find?_some h
  exact of_decide_eq_true this

/-- A successful find returns an element of the list. -/
theorem find?_mem_list (l : List RFNode) (p : RFNode → Bool) (n : RFNode)
    (h : l.find? p = some n) : n ∈ l := List.mem_of_find?_eq_some h

/-- The node collection after a drag position change. -/
theorem dragMove_nodes (s : Store) (id : String) (p : Pos) :
    (dragMove s id p).nodes =
      s.nodes.map (fun n => if n.id = id then { n with position := p } else n) := rfl

/-- The node collection after an `updateNode`. -/
theorem updateNode_nodes (s : Store) (id : String) (payload : NodePayload) :
    (updateNode s id payload).nodes =
      s.nodes.map (fun n => if n.id = id then applyPayload n payload else n) := rfl

/-! C2 — containment table strictness and the object-store exemption. -/

/-- C2 counterexample: the claim says an object-store leaf resource
whose candidate parent is a container other than a subnet-container is
invalid, but `validatePlacement` checks the s3 exemption before the
parent-type check, so an s3 node with a vpc candidate parent is
accepted. -/
theorem claim2_counterexample :
    fxS3.data.ty = "s3" ∧ fxVpc.type_ = some "vpc" ∧
    validatePlacement fxS3 (some fxVpc) = { valid := true, message := none } :=
  ⟨rfl, rfl, rfl⟩

/-- C2 amended: every tabulated child type whose specific kind is not
exempted is invalid under a supplied parent that is not of an allowed
type; the object-store exemption short-circuits the whole check, so an
s3 child is valid with any candidate parent (not only a null one). -/
theorem claim2_amended :
    (∀ (node p : RFNode) (rule : Rule),
        ruleFor (nodeTypeOf node) = some rule →
        node.data.ty ∉ rule.exceptions →
        (∀ t, p.type_ = some t → t ∉ rule.allowedParents) →
        (validatePlacement node (some p)).valid = false) ∧
    (∀ (node : RFNode) (parent : Option RFNode),
        node.data.ty = "s3" → (validatePlacement node parent).valid = true) := by
  constructor
  · intro node p rule hr hex hpt
    simp only [validatePlacement, hr]
    rw [if_neg hex]
    rw [if_neg (by simp)]
    cases hp : p.type_ with
    | none => simp
    | some t => simp [hpt t hp]
  · intro node parent h
    simp [validatePlacement, nodeTypeOf, ruleFor, h]

/-- C2 amended, witness: an ec2 leaf under a vpc candidate parent is
rejected, and an s3 leaf under that same vpc parent is accepted. -/
theorem claim2_amended_witness :
    (validatePlacement fxEc2 (some fxVpc)).valid = false ∧
    (validatePlacement fxS3 (some fxVpc)).valid = true :=
  ⟨claim2_amended.1 fxEc2 fxVpc
      { allowedParents := ["subnet"], mustHaveParent := true, exceptions := ["s3"],
        errorMessage := "Compute resources must be placed inside a Subnet." }
      (by decide) (by decide) (by decide),
   claim2_amended.2 fxS3 (some fxVpc) rfl⟩

/-! C6 — the empty-canvas cost reset and the debounce. -/

/-- C6 counterexample: with the node list already empty and stale cost
figures, the effect step only schedules the 500 ms timeout (whose
closure captures the empty list); the cost figures are untouched at
that step and reach zero only when the timer fires. -/
theorem claim6_counterexample :
    fxStaleCostStore.nodes = [] ∧
    costEffectStep 0 fxStaleCostStore none =
      some { fireAt := 500, captured := [] } ∧
    fxStaleCostStore.totalCost = 5 ∧ (5 : ℚ) ≠ 0 ∧
    (costTimerFire fxStaleCostStore (costEffectStep 0 fxStaleCostStore none)).1.totalCost = 0 := by
  refine ⟨rfl, rfl, rfl, by norm_num, rfl⟩

/-- C6 amended: when the node collection becomes empty, the effect
schedules the usual 500 ms debounce timeout capturing the empty list;
the cost state is reset to zero/empty only when that timer fires, not
synchronously at the emptying step. -/
theorem claim6_amended : ∀ (t : ℕ) (s : Store) (timer : Option DebounceTimer),
    s.nodes = [] →
    costEffectStep t s timer = some { fireAt := t + 500, captured := [] } ∧
    (costTimerFire s (costEffectStep t s timer)).1.totalCost = 0 ∧
    (costTimerFire s (costEffectStep t s timer)).1.costBreakdown = [] := by
  intro t s timer h
  refine ⟨by simp [costEffectStep, h], ?_, ?_⟩ <;>
    simp [costEffectStep, costTimerFire, h, setCosts]

/-- C6 amended, witness at a concrete time and store. -/
theorem claim6_amended_witness :
    costEffectStep 3 fxStaleCostStore none = some { fireAt := 3 + 500, captured := [] } ∧
    (costTimerFire fxStaleCostStore (costEffectStep 3 fxStaleCostStore none)).1.totalCost = 0 ∧
    (costTimerFire fxStaleCostStore (costEffectStep 3 fxStaleCostStore none)).1.costBreakdown = [] :=
  claim6_amended 3 fxStaleCostStore none rfl

/-! C7 — the fail-open default for unknown types. -/

/-- C7 counterexample: a newly introduced resource kind (`lambda`, a
kind absent from the rule table) is bucketed into the `service` rule,
and with no candidate parent its placement is blocked — so placement of
such a child is not "never blocked". -/
theorem claim7_counterexample :
    fxLambda.data.ty = "lambda" ∧ ruleFor "lambda" = none ∧
    validatePlacement fxLambda none =
      { valid := false,
        message := some "Compute resources must be placed inside a Subnet." } :=
  ⟨rfl, rfl, rfl⟩

/-- C7 amended: the fail-open default applies to the derived node type
(the wire-level type slot): whenever the derived type has no rule-table
entry the check accepts regardless of parent.  A new resource kind,
however, derives the node type `service` and is subject to the
leaf-resource rule. -/
theorem claim7_amended :
    (∀ (node : RFNode) (parent : Option RFNode),
        ruleFor (nodeTypeOf node) = none → (validatePlacement node parent).valid = true) ∧
    (∀ node : RFNode,
        node.data.ty ≠ "vpc" → node.data.ty ≠ "subnet" → node.data.ty ≠ "eks" →
        node.data.ty ≠ "eks-node-group" → nodeTypeOf node = "service") := by
  constructor
  · intro node parent h
    simp [validatePlacement, h]
  · intro node h1 h2 h3 h4
    simp [nodeTypeOf, h1, h2, h3, h4]

/-- C7 amended, witness: a node whose wire type is an untabulated
string (data type vpc, wire type `custom-container`) is accepted even
under a vpc parent, and the `lambda` kind derives type `service`. -/
theorem claim7_amended_witness :
    (validatePlacement
        (mkNode "c-1" (some "custom-container") "vpc" { x := 0, y := 0 } none none none none)
        (some fxVpc)).valid = true ∧
    nodeTypeOf fxLambda = "service" :=
  ⟨claim7_amended.1 _ (some fxVpc) (by decide),
   claim7_amended.2 fxLambda (by decide) (by decide) (by decide) (by decide)⟩

/-! C9 — invalid drag-stop with a missing or mismatched snapshot. -/

/-- C9: when the placement is invalid but the drag snapshot is absent
or recorded for a different node id, the drag-stop handler surfaces the
error and returns with the store unchanged (no revert: the node keeps
whatever position the drag gave it), keeping the snapshot as well. -/
theorem claim9_invalid_without_snapshot_no_mutation :
    ∀ (ref : Option DragRef) (s : Store) (node : RFNode),
    node.type_ ≠ some "vpc" →
    (validatePlacement node (dragStopParent s.nodes node)).valid = false →
    (∀ r, ref = some r → r.id ≠ node.id) →
    onNodeDragStop ref s node = (s, ref, DragOutcome.invalidNoSnapshot) := by
  intro ref s node hty hval href
  simp only [onNodeDragStop, if_neg hty, hval]
  cases ref with
  | none => simp
  | some r => simp [href r rfl]

/-- C9 witness: dragging the ec2 fixture into whitespace with no
snapshot recorded leaves the mid-drag store untouched. -/
theorem claim9_witness :
    onNodeDragStop none (mkStore [fxSubnetB, fxEc2Dragged]) fxEc2Dragged =
      (mkStore [fxSubnetB, fxEc2Dragged], none, DragOutcome.invalidNoSnapshot) :=
  claim9_invalid_without_snapshot_no_mutation none (mkStore [fxSubnetB, fxEc2Dragged]) fxEc2Dragged
    (by decide)
    (by
      norm_num [validatePlacement, dragStopParent, dragStopCenter, findNewParent,
        scanDragParents, sortZDesc, insertZDesc, zKey, isContainerType, insideRect,
        dragPairOk, absOf, getAbsolutePosition, findParent, jsOr, truthyQ, addPos,
        mkStore, fxSubnetB, fxEc2, fxEc2Dragged, mkNode, List.find?, List.filter,
        List.foldl, nodeTypeOf, ruleFor]
      decide)
    (fun r hr => by cases hr)

/-! C10 — updates at an absent id. -/

/-- C10: `updateNode` and `updateNodeData` with an id not present in
the store leave every node value unchanged but still store a freshly
allocated collection, so a reference-equality observer sees a change. -/
theorem claim10_absent_id_noop_but_fresh :
    ∀ (s : Store) (id : String) (payload : NodePayload) (patch : NodeDataPatch),
    (∀ n ∈ s.nodes, n.id ≠ id) →
    (updateNode s id payload).nodes = s.nodes ∧
    (updateNode s id payload).nodesAlloc ≠ s.nodesAlloc ∧
    (updateNodeData s id patch).nodes = s.nodes ∧
    (updateNodeData s id patch).nodesAlloc ≠ s.nodesAlloc := by
  intro s id payload patch h
  refine ⟨map_modify_not_mem s.nodes id _ h, Nat.succ_ne_self _,
    map_modify_not_mem s.nodes id _ h, Nat.succ_ne_self _⟩

/-- C10 witness at a concrete store and an id not occurring in it. -/
theorem claim10_witness :
    (updateNode (mkStore [fxVpc]) "nope"
        { position := none, parentNode := some none, extent := none }).nodes = [fxVpc] ∧
    (updateNode (mkStore [fxVpc]) "nope"
        { position := none, parentNode := some none, extent := none }).nodesAlloc ≠ 0 ∧
    (updateNodeData (mkStore [fxVpc]) "nope"
        { ty := none, label := some "x", attrs := [] }).nodes = [fxVpc] ∧
    (updateNodeData (mkStore [fxVpc]) "nope"
        { ty := none, label := some "x", attrs := [] }).nodesAlloc ≠ 0 :=
  claim10_absent_id_noop_but_fresh (mkStore [fxVpc]) "nope" _ _ (by decide)

/-! C8 — drags of network containers. -/

/-- C8 counterexample: a complete drag gesture on the vpc container
leaves it at the dragged position — the drag itself moved it in the
store and the drag-stop early return never reverts it — contradicting
the claim that a drag never changes a network-container's position. -/
theorem claim8_counterexample :
    ((dragGesture (mkStore [fxVpc]) "vpc-1" { x := 50, y := 50 }).1.nodes.find?
        (fun n => n.id = "vpc-1")).map (fun n => (n.position, n.parentNode)) =
      some ({ x := 50, y := 50 }, none) ∧
    fxVpc.position = { x := 0, y := 0 } ∧
    ({ x := 50, y := 50 } : Pos) ≠ { x := 0, y := 0 } := by
  refine ⟨by decide, rfl, by decide⟩

/-- C8 amended: the drag-stop handler performs no mutation at all for a
vpc-typed node (it returns before hit-testing and validation), so a
drag never changes its `parentNode`; but the position change applied by
the drag itself persists, the node ending exactly at the dragged
position with every other field unchanged. -/
theorem claim8_amended :
    ∀ (s : Store) (id : String) (dragged : Pos) (n0 : RFNode),
    s.nodes.find? (fun n => n.id = id) = some n0 →
    n0.type_ = some "vpc" →
    (dragGesture s id dragged).1.nodes.find? (fun n => n.id = id) =
      some { n0 with position := dragged } ∧
    (dragGesture s id dragged).2.2 = DragOutcome.vpcSkip := by
  intro s id dragged n0 h0 hty
  have hgest : dragGesture s id dragged =
      (dragMove s id dragged, onNodeDragStart n0, DragOutcome.vpcSkip) := by
    simp [dragGesture, h0, onNodeDragStop, hty]
  rw [hgest]
  refine ⟨?_, rfl⟩
  simp only [dragMove]
  rw [find?_modify s.nodes id (fun n => { n with position := dragged }) (fun n => rfl), h0]
  rfl

/-- C8 amended, witness: the vpc fixture dragged to (50,50). -/
theorem claim8_amended_witness :
    (dragGesture (mkStore [fxVpc]) "vpc-1" { x := 50, y := 50 }).1.nodes.find?
        (fun n => n.id = "vpc-1") = some { fxVpc with position := { x := 50, y := 50 } } ∧
    (dragGesture (mkStore [fxVpc]) "vpc-1" { x := 50, y := 50 }).2.2 = DragOutcome.vpcSkip :=
  claim8_amended (mkStore [fxVpc]) "vpc-1" { x := 50, y := 50 } fxVpc (by decide) rfl

/-! C1 — invalid drag-stop reverts to the drag-start snapshot. -/

/-- C1: when the rule engine marks the drag-stop placement invalid, the
gesture's revert restores the drag-start snapshot, and the store's node
under the dragged id is identical to what it was before the drag (the
revert also writes `extent: undefined`, which every node this app
creates already has, hence the `extent = none` hypothesis). -/
theorem claim1_invalid_dragstop_reverts :
    ∀ (s : Store) (id : String) (dragged : Pos) (n0 : RFNode),
    s.nodes.find? (fun n => n.id = id) = some n0 →
    n0.type_ ≠ some "vpc" →
    n0.extent = none →
    (validatePlacement { n0 with position := dragged }
        (dragStopParent (dragMove s id dragged).nodes
          { n0 with position := dragged })).valid = false →
    (dragGesture s id dragged).1.nodes.find? (fun n => n.id = id) = some n0 ∧
    (dragGesture s id dragged).2.2 = DragOutcome.invalidReverted := by
  intro s id dragged n0 h0 hty hext hval
  have hid : n0.id = id := find?_id_eq _ _ _ h0
  have hgest : dragGesture s id dragged =
      (updateNode (dragMove s id dragged) n0.id
        { position := some n0.position, parentNode := some n0.parentNode,
          extent := some none },
       onNodeDragStart n0, DragOutcome.invalidReverted) := by
    simp [dragGesture, h0, onNodeDragStop, onNodeDragStart, hty, hval]
  rw [hgest]
  refine ⟨?_, rfl⟩
  simp only [updateNode, dragMove, hid]
  rw [map_modify_comp s.nodes id (fun n => { n with position := dragged })
    (fun n => applyPayload n
      { position := some n0.position, parentNode := some n0.parentNode, extent := some none })
    (fun n => rfl)]
  rw [find?_modify s.nodes id
    (fun n => applyPayload { n with position := dragged }
      { position := some n0.position, parentNode := some n0.parentNode, extent := some none })
    (fun n => rfl), h0]
  obtain ⟨i, t, d, p, pn, w, h, sw, sh, z, ex, pa⟩ := n0
  cases hext
  rfl

/-- C1 witness: the ec2 fixture inside the second subnet, dragged into
whitespace — the placement is invalid (a leaf resource needs a subnet)
and the store's node reverts to exactly its pre-drag value. -/
theorem claim1_witness :
    (dragGesture (mkStore [fxSubnetB, fxEc2]) "ec2-1" { x := 1000, y := 1000 }).1.nodes.find?
        (fun n => n.id = "ec2-1") = some fxEc2 ∧
    (dragGesture (mkStore [fxSubnetB, fxEc2]) "ec2-1" { x := 1000, y := 1000 }).2.2 =
      DragOutcome.invalidReverted :=
  claim1_invalid_dragstop_reverts (mkStore [fxSubnetB, fxEc2]) "ec2-1"
    { x := 1000, y := 1000 } fxEc2 (by decide) (by decide) rfl
    (by
      simp [validatePlacement, dragStopParent, dragStopCenter, findNewParent,
        scanDragParents, sortZDesc, insertZDesc, zKey, isContainerType, insideRect,
        dragPairOk, absOf, getAbsolutePosition, findParent, jsOr, truthyQ, addPos,
        mkStore, fxSubnetB, fxEc2, mkNode, dragMove, List.find?, List.filter,
        List.foldl, nodeTypeOf, ruleFor]
      norm_num)

/-! C5 — palette drops commit iff the placement check passes. -/

/-- C5: a palette drop with a non-empty drag type appends the created
node exactly when `validatePlacement` accepts the placed node against
its hit-tested candidate parent, and aborts with the store untouched
otherwise; dropping an s3 (object-store) on the empty canvas creates a
parentless node, while an ec2 (compute-instance) on the empty canvas
creates nothing. -/
theorem claim5_drop_commits_iff_valid :
    (∀ (s : Store) (ty : String) (pos : Pos) (now : ℕ), ty ≠ "" →
      ((validatePlacement (dropPlacedNode s.nodes ty pos now)
          (dropParentLookup s.nodes (dropPlacedNode s.nodes ty pos now))).valid = true →
        (onDrop s ty pos now).nodes = s.nodes ++ [dropPlacedNode s.nodes ty pos now]) ∧
      ((validatePlacement (dropPlacedNode s.nodes ty pos now)
          (dropParentLookup s.nodes (dropPlacedNode s.nodes ty pos now))).valid = false →
        onDrop s ty pos now = s) ∧
      ((onDrop s ty pos now).nodes.length = s.nodes.length + 1 ↔
        (validatePlacement (dropPlacedNode s.nodes ty pos now)
          (dropParentLookup s.nodes (dropPlacedNode s.nodes ty pos now))).valid = true)) ∧
    (onDrop emptyStore "s3" { x := 100, y := 100 } 7).nodes.map
        (fun n => (n.data.ty, n.parentNode)) = [("s3", none)] ∧
    (onDrop emptyStore "ec2" { x := 100, y := 100 } 7) = emptyStore := by
  refine ⟨?_, by decide, by rfl⟩
  intro s ty pos now hty
  cases hv : (validatePlacement (dropPlacedNode s.nodes ty pos now)
      (dropParentLookup s.nodes (dropPlacedNode s.nodes ty pos now))).valid with
  | false =>
    have hod : onDrop s ty pos now = s := by simp [onDrop, hty, hv]
    refine ⟨?_, fun _ => hod, ?_⟩
    · intro h; simp at h
    · rw [hod]
      constructor
      · intro h; exact absurd h (by omega)
      · intro h; simp at h
  | true =>
    have hod : (onDrop s ty pos now).nodes = s.nodes ++ [dropPlacedNode s.nodes ty pos now] := by
      simp [onDrop, hty, hv, addNode]
    refine ⟨fun _ => hod, ?_, ?_⟩
    · intro h; simp at h
    · rw [hod]
      simp

/-- C5 witness: dropping an ec2 at (50,50), a point inside the subnet
fixture, appends the placed node (the check passes). -/
theorem claim5_witness :
    (onDrop (mkStore [fxVpc, fxSubnetA]) "ec2" { x := 50, y := 50 } 9).nodes =
      (mkStore [fxVpc, fxSubnetA]).nodes ++
        [dropPlacedNode (mkStore [fxVpc, fxSubnetA]).nodes "ec2" { x := 50, y := 50 } 9] :=
  ((claim5_drop_commits_iff_valid.1 (mkStore [fxVpc, fxSubnetA]) "ec2"
      { x := 50, y := 50 } 9 (by decide)).1
    (by
      simp [validatePlacement, dropPlacedNode, dropNewNode, dropGeometry, defaultDataFor,
        findDropParent, scanDropParents, dropPairOk, dropParentLookup, isContainerTy,
        sortZDesc, insertZDesc, zKey, isContainerType, insideRect, absOf,
        getAbsolutePosition, findParent, jsOr, truthyQ, addPos, subPos, mkStore, fxVpc,
        fxSubnetA, mkNode, List.find?, List.filter, List.foldl, nodeTypeOf, ruleFor]
      norm_num
      decide))

/-! C3 — the coordinate resolver's compositionality. -/

/-- Resolving an absent node yields the origin at any fuel. -/
theorem getAbs_none (f : ℕ) (s : List RFNode) :
    getAbsolutePosition f s none = { x := 0, y := 0 } := by
  cases f <;> rfl

/-- One resolver step on a cache-free node: its relative position plus
the recursively resolved parent. -/
theorem getAbs_step (f : ℕ) (s : List RFNode) (n : RFNode)
    (hn : n.positionAbsolute = none) :
    getAbsolutePosition (f + 1) s (some n) =
      addPos n.position (getAbsolutePosition f s (findParent s n.parentNode)) := by
  simp only [getAbsolutePosition, hn]

/-- A parent delivered by `findParent` is a member of the store. -/
theorem findParent_mem (s : List RFNode) (pid : Option String) (p : RFNode)
    (h : findParent s pid = some p) : p ∈ s := by
  cases pid with
  | none => simp [findParent] at h
  | some x =>
    simp only [findParent] at h
    exact List.mem_of_find?_eq_some h

/-- On a cache-free store, once the fuel covers the chain (as certified
by `chainOk`), adding more fuel does not change the resolved
position. -/
theorem getAbs_fuel_stable :
    ∀ (f : ℕ) (s : List RFNode) (o : Option RFNode),
    (∀ m ∈ s, m.positionAbsolute = none) →
    (∀ n, o = some n → n.positionAbsolute = none) →
    chainOk f s o = true →
    ∀ g, f < g → getAbsolutePosition g s o = getAbsolutePosition (f + 1) s o := by
  intro f
  induction f with
  | zero =>
    intro s o hs ho hchain g hg
    cases o with
    | none => rw [getAbs_none, getAbs_none]
    | some n => simp [chainOk] at hchain
  | succ f ih =>
    intro s o hs ho hchain g hg
    cases o with
    | none => rw [getAbs_none, getAbs_none]
    | some n =>
      obtain ⟨g', rfl⟩ : ∃ g', g = g' + 1 := ⟨g - 1, by omega⟩
      have hn : n.positionAbsolute = none := ho n rfl
      rw [getAbs_step g' s n hn, getAbs_step (f + 1) s n hn]
      cases hp : findParent s n.parentNode with
      | none => rw [getAbs_none, getAbs_none]
      | some p =>
        have hpcf : p.positionAbsolute = none := hs p (findParent_mem s n.parentNode p hp)
        have hch : chainOk f s (some p) = true := by
          simp only [chainOk, hp] at hchain
          exact hchain
        rw [ih s (some p) hs (fun m hm => by cases hm; exact hpcf) hch g' (by omega)]

/-- C3 counterexample: the resolver returns a present `positionAbsolute`
cache as-is, so a node carrying a stale cache has a resolvable,
acyclic one-step parent chain and yet its resolved position differs
from its parent's resolved position plus its own relative position. -/
theorem claim3_counterexample :
    fxCachedChild.parentNode = some "p" ∧
    [fxCachedChild, fxChainRoot].find? (fun m => m.id = "p") = some fxChainRoot ∧
    fxChainRoot.parentNode = none ∧
    absOf [fxCachedChild, fxChainRoot] (some fxCachedChild) ≠
      addPos (absOf [fxCachedChild, fxChainRoot] (some fxChainRoot))
        fxCachedChild.position := by
  refine ⟨rfl, by decide, rfl, ?_⟩
  simp [absOf, getAbsolutePosition, findParent, addPos, fxCachedChild, fxChainRoot,
    mkNode, List.find?]
  norm_num

/-- C3 amended: on a store carrying no `positionAbsolute` caches (as is
the case for every node this app's store creates), a node with a
resolvable chain resolves to its parent's resolved position plus its
own relative position, and to its own relative position when the parent
link is absent or dangling. -/
theorem claim3_amended :
    ∀ (f : ℕ) (s : List RFNode) (n : RFNode),
    (∀ m ∈ s, m.positionAbsolute = none) →
    n.positionAbsolute = none →
    chainOk f s (some n) = true →
    (∀ p, findParent s n.parentNode = some p →
      getAbsolutePosition (f + 1) s (some n) =
        addPos (getAbsolutePosition (f + 1) s (some p)) n.position) ∧
    (findParent s n.parentNode = none →
      getAbsolutePosition (f + 1) s (some n) = n.position) := by
  intro f s n hs hn hchain
  constructor
  · intro p hp
    cases f with
    | zero => simp [chainOk] at hchain
    | succ f' =>
      rw [getAbs_step (f' + 1) s n hn, hp]
      have hpcf : p.positionAbsolute = none := hs p (findParent_mem s n.parentNode p hp)
      have hch : chainOk f' s (some p) = true := by
        simp only [chainOk, hp] at hchain
        exact hchain
      rw [getAbs_fuel_stable f' s (some p) hs (fun m hm => by cases hm; exact hpcf) hch
        (f' + 1 + 1) (by omega)]
      simp [addPos, add_comm]
  · intro hp
    cases f with
    | zero => simp [chainOk] at hchain
    | succ f' =>
      rw [getAbs_step (f' + 1) s n hn, hp, getAbs_none]
      simp [addPos]

/-- C3 amended, witness on a cache-free two-node chain. -/
theorem claim3_amended_witness :
    getAbsolutePosition 3 [fxChainRoot, fxChainChild] (some fxChainChild) =
      addPos (getAbsolutePosition 3 [fxChainRoot, fxChainChild] (some fxChainRoot))
        fxChainChild.position :=
  (claim3_amended 2 [fxChainRoot, fxChainChild] fxChainChild (by decide) rfl
      (by decide)).1 fxChainRoot (by decide)

/-! C4 — round-trip reparenting. -/

/-- Looking up one id after an id-preserving modification targeted at a
different id is unchanged. -/
theorem find?_modify_other (l : List RFNode) (x y : String) (g : RFNode → RFNode)
    (hg : ∀ n, (g n).id = n.id) (hxy : y ≠ x) :
    (l.map (fun n => if n.id = x then g n else n)).find? (fun n => n.id = y) =
      l.find? (fun n => n.id = y) := by
  induction l with
  | nil => rfl
  | cons a t ih =>
    by_cases ha : a.id = x
    · have hay : ¬a.id = y := fun h => hxy (by rw [← h]; exact ha)
      simp only [List.map_cons]
      rw [if_pos ha]
      simp [List.find?, hg, hay, ih]
    · by_cases hay : a.id = y
      · simp only [List.map_cons]
        rw [if_neg ha]
        simp [List.find?, hay]
      · simp only [List.map_cons]
        rw [if_neg ha]
        simp [List.find?, hay, ih]

/-- The parent-id chain walked from a node is unchanged by an
id-preserving modification targeted at an id outside that chain. -/
theorem chainPids_modify_off :
    ∀ (f : ℕ) (s : List RFNode) (o : Option RFNode) (x : String) (g : RFNode → RFNode),
    (∀ n, (g n).id = n.id) →
    x ∉ chainPids f s o →
    chainPids f (s.map (fun n => if n.id = x then g n else n)) o = chainPids f s o := by
  intro f
  induction f with
  | zero =>
    intro s o x g hg h
    cases o <;> rfl
  | succ f ih =>
    intro s o x g hg h
    cases o with
    | none => rfl
    | some n =>
      cases hpn : n.parentNode with
      | none => simp [chainPids, hpn]
      | some pid =>
        simp only [chainPids, hpn] at h ⊢
        rw [List.mem_cons] at h
        push_neg at h
        rw [find?_modify_other s x pid g hg (fun he => h.1 he.symm)]
        cases hfp : s.find? (fun m => m.id = pid) with
        | none => rfl
        | some p =>
          rw [hfp] at h
          simp only at h ⊢
          rw [ih s (some p) x g hg h.2]

/-- Resolver invariance: modifying the node with an id outside the
resolved node's parent-id chain (preserving ids) does not change the
resolved position. -/
theorem getAbs_modify_off_chain :
    ∀ (f : ℕ) (s : List RFNode) (o : Option RFNode) (x : String) (g : RFNode → RFNode),
    (∀ n, (g n).id = n.id) →
    x ∉ chainPids f s o →
    getAbsolutePosition f (s.map (fun n => if n.id = x then g n else n)) o =
      getAbsolutePosition f s o := by
  intro f
  induction f with
  | zero =>
    intro s o x g hg h
    cases o <;> rfl
  | succ f ih =>
    intro s o x g hg h
    cases o with
    | none => rfl
    | some n =>
      cases hc : n.positionAbsolute with
      | some pa => simp [getAbsolutePosition, hc]
      | none =>
        rw [getAbs_step f _ n hc, getAbs_step f s n hc]
        cases hpn : n.parentNode with
        | none => rw [findParent, findParent, getAbs_none, getAbs_none]
        | some pid =>
          simp only [findParent]
          simp only [chainPids, hpn] at h
          rw [List.mem_cons] at h
          push_neg at h
          rw [find?_modify_other s x pid g hg (fun he => h.1 he.symm)]
          cases hfp : s.find? (fun m => m.id = pid) with
          | none => rw [getAbs_none, getAbs_none]
          | some p =>
            rw [hfp] at h
            simp only at h
            rw [ih s (some p) x g hg h.2]

/-- Exact-arithmetic cancellation used by the round-trip argument. -/
theorem subPos_addPos_cancel (a b : Pos) :
    subPos (addPos (addPos a b) { x := 0, y := 0 }) b = a := by
  cases a
  cases b
  simp only [subPos, addPos, Pos.mk.injEq]
  constructor <;> ring

/-- C4 amended: dragging a node out of its container (the first
drag-stop commits an orphan placement) and then back so that its
absolute position at the second drag-stop equals its original absolute
position restores, under exact arithmetic, exactly the original store
node — original parent and original relative position — provided the
second drag-stop's hit test selects the original parent (the amendment:
another legal container covering the same spot with higher stacking
priority would be selected instead).  The cache-free, acyclic-chain and
off-chain hypotheses express that the store is one this app's
operations produce. -/
theorem claim4_roundtrip_restores :
    ∀ (s : Store) (n0 P : RFNode) (pid : String) (d1 d2 : Pos),
    s.nodes.find? (fun n => n.id = n0.id) = some n0 →
    n0.type_ ≠ some "vpc" →
    n0.parentNode = some pid →
    s.nodes.find? (fun m => m.id = pid) = some P →
    (∀ m ∈ s.nodes, m.positionAbsolute = none) →
    chainOk s.nodes.length s.nodes (some n0) = true →
    n0.id ∉ chainPids (s.nodes.length + 1) s.nodes (some P) →
    dragStopParent (dragMove s n0.id d1).nodes { n0 with position := d1 } = none →
    (validatePlacement { n0 with position := d1 } none).valid = true →
    dragStopParent (dragMove (dragGesture s n0.id d1).1 n0.id d2).nodes
      { n0 with position := d2, parentNode := none } = some P →
    (validatePlacement { n0 with position := d2, parentNode := none } (some P)).valid = true →
    d2 = absOf s.nodes (some n0) →
    (dragGesture (dragGesture s n0.id d1).1 n0.id d2).1.nodes.find?
      (fun n => n.id = n0.id) = some n0 := by
  intro s n0 P pid d1 d2 h0 hty hpar hP hcf hchain hPx h1hit h1val h2hit h2val habs
  have hn0cf : n0.positionAbsolute = none := hcf n0 (find?_mem_list _ _ _ h0)
  have hPcf : P.positionAbsolute = none := hcf P (find?_mem_list _ _ _ hP)
  have hPid : P.id = pid := find?_id_eq _ _ _ hP
  obtain ⟨L, hL⟩ : ∃ L, s.nodes.length = L + 1 := by
    cases hsn : s.nodes with
    | nil => rw [hsn] at h0; simp [List.find?] at h0
    | cons a t => exact ⟨t.length, rfl⟩
  have hchP : chainOk L s.nodes (some P) = true := by
    rw [hL] at hchain
    simpa only [chainOk, hpar, findParent, hP] using hchain
  -- the drag-out absolute spot decomposes as relative + parent absolute
  have habs2 : d2 = addPos n0.position (getAbsolutePosition (L + 1) s.nodes (some P)) := by
    rw [habs]
    unfold absOf
    rw [hL, getAbs_step (L + 1) s.nodes n0 hn0cf, hpar]
    simp only [findParent]
    rw [hP]
  rw [hpar] at h1hit h1val
  -- gesture 1 commits the orphan placement
  have hg1 : dragGesture s n0.id d1 =
      (updateNode (dragMove s n0.id d1) n0.id
        { position := some (absOf (dragMove s n0.id d1).nodes
            (some { n0 with position := d1 })),
          parentNode := some none, extent := none },
       none, DragOutcome.orphaned) := by
    simp [dragGesture, h0, onNodeDragStop, onNodeDragStart, hty, h1hit, h1val, hpar]
  obtain ⟨A1, hs2⟩ : ∃ A1, (dragGesture s n0.id d1).1 =
      updateNode (dragMove s n0.id d1) n0.id
        { position := some A1, parentNode := some none, extent := none } :=
    ⟨_, by rw [hg1]⟩
  rw [hs2] at h2hit ⊢
  -- the store node after gesture 1
  have hf1 : (dragMove s n0.id d1).nodes.find? (fun n => n.id = n0.id) =
      some { n0 with position := d1 } := by
    simp only [dragMove]
    rw [find?_modify s.nodes n0.id (fun n => { n with position := d1 }) (fun n => rfl), h0]
    rfl
  have hf2 : (updateNode (dragMove s n0.id d1) n0.id
      { position := some A1, parentNode := some none, extent := none }).nodes.find?
      (fun n => n.id = n0.id) = some { n0 with position := A1, parentNode := none } := by
    simp only [updateNode]
    rw [find?_modify _ n0.id
      (fun n => applyPayload n
        { position := some A1, parentNode := some none, extent := none })
      (fun n => rfl), hf1]
    rfl
  -- gesture 2 commits the reparent to P
  have hg2 : dragGesture (updateNode (dragMove s n0.id d1) n0.id
      { position := some A1, parentNode := some none, extent := none }) n0.id d2 =
      (updateNode (dragMove (updateNode (dragMove s n0.id d1) n0.id
          { position := some A1, parentNode := some none, extent := none }) n0.id d2) n0.id
        { position := some (subPos
            (absOf (dragMove (updateNode (dragMove s n0.id d1) n0.id
                { position := some A1, parentNode := some none, extent := none }) n0.id d2).nodes
              (some { n0 with position := d2, parentNode := none }))
            (absOf (dragMove (updateNode (dragMove s n0.id d1) n0.id
                { position := some A1, parentNode := some none, extent := none }) n0.id d2).nodes
              (some P))),
          parentNode := some (some P.id), extent := none },
       none, DragOutcome.reparented) := by
    simp [dragGesture, hf2, onNodeDragStop, onNodeDragStart, hty, h2hit, h2val]
  rw [hg2]
  -- the final store node
  have hf3 : (dragMove (updateNode (dragMove s n0.id d1) n0.id
      { position := some A1, parentNode := some none, extent := none }) n0.id d2).nodes.find?
      (fun n => n.id = n0.id) = some { n0 with position := d2, parentNode := none } := by
    rw [dragMove_nodes,
      find?_modify _ n0.id (fun n => { n with position := d2 }) (fun n => rfl), hf2]
    rfl
  -- the mid-drag store of gesture 2 is an off-chain modification of s
  have hs3 : (dragMove (updateNode (dragMove s n0.id d1) n0.id
      { position := some A1, parentNode := some none, extent := none }) n0.id d2).nodes =
      s.nodes.map (fun n => if n.id = n0.id then
        { applyPayload { n with position := d1 }
            { position := some A1, parentNode := some none, extent := none } with
          position := d2 } else n) := by
    rw [dragMove_nodes, updateNode_nodes, dragMove_nodes]
    rw [map_modify_comp s.nodes n0.id (fun n => { n with position := d1 })
      (fun n => applyPayload n
        { position := some A1, parentNode := some none, extent := none })
      (fun n => rfl)]
    rw [map_modify_comp s.nodes n0.id
      (fun n => applyPayload { n with position := d1 }
        { position := some A1, parentNode := some none, extent := none })
      (fun n => { n with position := d2 })
      (fun n => rfl)]
  -- the candidate parent's absolute position is unaffected by the gestures
  have hpAbs : absOf (dragMove (updateNode (dragMove s n0.id d1) n0.id
      { position := some A1, parentNode := some none, extent := none }) n0.id d2).nodes
      (some P) = getAbsolutePosition (L + 1) s.nodes (some P) := by
    rw [hs3]
    unfold absOf
    rw [List.length_map, hL]
    rw [getAbs_modify_off_chain (L + 1 + 1) s.nodes (some P) n0.id
      (fun n => { applyPayload { n with position := d1 }
          { position := some A1, parentNode := some none, extent := none } with
        position := d2 })
      (fun n => rfl) (by rw [hL] at hPx; exact hPx)]
    exact getAbs_fuel_stable L s.nodes (some P) hcf
      (fun m hm => by cases hm; exact hPcf) hchP (L + 1 + 1) (by omega)
  -- the dragged node's absolute position at the second stop is d2
  have hnAbs : absOf (dragMove (updateNode (dragMove s n0.id d1) n0.id
      { position := some A1, parentNode := some none, extent := none }) n0.id d2).nodes
      (some { n0 with position := d2, parentNode := none }) =
      addPos d2 { x := 0, y := 0 } := by
    unfold absOf
    rw [getAbs_step _ _ _
      (show ({ n0 with position := d2, parentNode := none } : RFNode).positionAbsolute = none
        from hn0cf)]
    dsimp only
    rw [findParent, getAbs_none]
  -- assemble
  rw [updateNode]
  rw [find?_modify _ n0.id
    (fun n => applyPayload n
      { position := some (subPos
          (absOf (dragMove (updateNode (dragMove s n0.id d1) n0.id
              { position := some A1, parentNode := some none, extent := none }) n0.id d2).nodes
            (some { n0 with position := d2, parentNode := none }))
          (absOf (dragMove (updateNode (dragMove s n0.id d1) n0.id
              { position := some A1, parentNode := some none, extent := none }) n0.id d2).nodes
            (some P))),
        parentNode := some (some P.id), extent := none })
    (fun n => rfl), hf3]
  have hsub : subPos
      (absOf (dragMove (updateNode (dragMove s n0.id d1) n0.id
          { position := some A1, parentNode := some none, extent := none }) n0.id d2).nodes
        (some { n0 with position := d2, parentNode := none }))
      (absOf (dragMove (updateNode (dragMove s n0.id d1) n0.id
          { position := some A1, parentNode := some none, extent := none }) n0.id d2).nodes
        (some P)) = n0.position := by
    rw [hnAbs, hpAbs, habs2]
    exact subPos_addPos_cancel n0.position _
  simp only [Option.map_some']
  obtain ⟨i0, t0, dd0, p0, pn0, w0, hh0, sw0, sh0, z0, ex0, pa0⟩ := n0
  simp only [applyPayload]
  simp only at hsub hpar hPid ⊢
  rw [hsub, hPid, hpar]
  rfl

set_option maxHeartbeats 1000000 in
/-- C4 counterexample: with two overlapping equal-priority subnets, the
s3 node originally in the second subnet, dragged to whitespace and then
back so that its absolute position (100,100) equals its original
absolute position, is committed to the FIRST subnet (earlier in the
stable candidate order), not its original parent — so the round trip is
not the identity as claimed. -/
theorem claim4_counterexample :
    fxS3.parentNode = some "subnet-2" ∧
    absOf fxQuadStore.nodes (some fxS3) = { x := 100, y := 100 } ∧
    (dragGesture fxQuadStore "s3-1" { x := 1000, y := 1000 }).2.2 = DragOutcome.orphaned ∧
    (((dragGesture (dragGesture fxQuadStore "s3-1" { x := 1000, y := 1000 }).1 "s3-1"
        { x := 100, y := 100 }).1.nodes.find? (fun n => n.id = "s3-1")).map
      (fun n => (n.parentNode, n.position))) =
      some (some "subnet-1", { x := 90, y := 90 }) ∧
    (some "subnet-1" : Option String) ≠ some "subnet-2" := by
  have hstep1 : (dragGesture fxQuadStore "s3-1" { x := 1000, y := 1000 }).1 =
      { nodes := [fxVpc, fxSubnetA, fxSubnetB,
          { fxS3 with position := { x := 1060, y := 1060 }, parentNode := none }],
        edges := [], nodesAlloc := 2, totalCost := 0, costBreakdown := [] } := by
    simp [dragGesture, onNodeDragStart, onNodeDragStop, dragStopParent, dragStopCenter,
      findNewParent, scanDragParents, sortZDesc, insertZDesc, zKey, isContainerType,
      insideRect, dragPairOk, validatePlacement, nodeTypeOf, ruleFor, absOf,
      getAbsolutePosition, findParent, jsOr, truthyQ, addPos, subPos, dragMove,
      updateNode, applyPayload, mkStore, fxQuadStore, fxVpc, fxSubnetA, fxSubnetB,
      fxS3, mkNode, List.find?, List.filter, List.foldl]
    try norm_num
  refine ⟨rfl, ?_, ?_, ?_, by decide⟩ <;>
    try rw [hstep1]
  all_goals
    simp [dragGesture, onNodeDragStart, onNodeDragStop, dragStopParent, dragStopCenter,
      findNewParent, scanDragParents, sortZDesc, insertZDesc, zKey, isContainerType,
      insideRect, dragPairOk, validatePlacement, nodeTypeOf, ruleFor, absOf,
      getAbsolutePosition, findParent, jsOr, truthyQ, addPos, subPos, dragMove,
      updateNode, applyPayload, mkStore, fxQuadStore, fxVpc, fxSubnetA, fxSubnetB,
      fxS3, mkNode, List.find?, List.filter, List.foldl]
    try norm_num
    try simp [getAbsolutePosition, findParent, addPos, List.find?]
    try norm_num
    try decide

set_option maxHeartbeats 1000000 in
/-- C4 amended, witness: the single-subnet round trip — out to
whitespace, back to absolute (100,100) — restores the s3 fixture
exactly. -/
theorem claim4_roundtrip_witness :
    (dragGesture (dragGesture fxTriStore "s3-1" { x := 1000, y := 1000 }).1 "s3-1"
        { x := 100, y := 100 }).1.nodes.find? (fun n => n.id = fxS3.id) = some fxS3 :=
  claim4_roundtrip_restores fxTriStore fxS3 fxSubnetB "subnet-2"
    { x := 1000, y := 1000 } { x := 100, y := 100 }
    (by decide) (by decide) rfl (by decide) (by decide) (by decide) (by decide)
    (by
      simp [dragStopParent, dragStopCenter, findNewParent, scanDragParents, sortZDesc,
        insertZDesc, zKey, isContainerType, insideRect, dragPairOk, absOf,
        getAbsolutePosition, findParent, jsOr, truthyQ, addPos, dragMove, mkStore,
        fxTriStore, fxVpc, fxSubnetB, fxS3, mkNode, List.find?, List.filter, List.foldl]
      norm_num)
    (by decide)
    (by
      have hstep1 : (dragGesture fxTriStore fxS3.id { x := 1000, y := 1000 }).1 =
          { nodes := [fxVpc, fxSubnetB,
              { fxS3 with position := { x := 1060, y := 1060 }, parentNode := none }],
            edges := [], nodesAlloc := 2, totalCost := 0, costBreakdown := [] } := by
        simp [dragGesture, onNodeDragStart, onNodeDragStop, dragStopParent, dragStopCenter,
          findNewParent, scanDragParents, sortZDesc, insertZDesc, zKey, isContainerType,
          insideRect, dragPairOk, validatePlacement, nodeTypeOf, ruleFor, absOf,
          getAbsolutePosition, findParent, jsOr, truthyQ, addPos, subPos, dragMove,
          updateNode, applyPayload, mkStore, fxTriStore, fxVpc, fxSubnetB,
          fxS3, mkNode, List.find?, List.filter, List.foldl]
        try norm_num
      rw [hstep1]
      simp [dragStopParent, dragStopCenter, findNewParent, scanDragParents, sortZDesc,
        insertZDesc, zKey, isContainerType, insideRect, dragPairOk, absOf,
        getAbsolutePosition, findParent, jsOr, truthyQ, addPos, dragMove, mkStore,
        fxVpc, fxSubnetB, fxS3, mkNode, List.find?, List.filter, List.foldl]
      try norm_num
      try decide)
    (by decide)
    (by
      simp [absOf, getAbsolutePosition, findParent, addPos, mkStore, fxTriStore,
        fxVpc, fxSubnetB, fxS3, mkNode, List.find?]
      norm_num)

end CloudGraph
